import Mathlib

/-!
Verification development for the LogFlow paged logger (`src/logger.c`).

The C code is embedded shallowly:

* A C `char` buffer is modelled as a total function `Int → Char` indexed by
  byte offset from the buffer's base pointer; a store through the pointer is
  a pointwise function update (`writeByte`).  Each page's bytes are kept in
  that page's own buffer object, so a store the C code makes past a page's
  capacity is visible here as a store at an offset `≥ capacity` of that
  page's buffer; in the single-arena layout of `logger.c` such a byte
  physically lands in the following page's `page_list` record.
* The intrusive linked list of pages (`genList.h`, an external collaborator
  whose header is not part of this repository's sources) is modelled as a
  `List Page` in creation order; `list_for_each_entry_safe` traversals that
  compare a running index against a target index are modelled as structural
  recursion that counts the target index down, exactly as
  `logger_clear_page` itself does in C.
* A `const char *data` argument is modelled as the list of bytes stored at
  the pointer up to (not including) the terminating null byte, so
  `strlen data = data.length`.
* The platform allocator (`mallocv`) is modelled by a boolean `alloc_ok`
  parameter: `true` means the allocation succeeds.  The bytes of freshly
  allocated memory are indeterminate, so creation takes an arbitrary
  `junk` function giving the initial content of each page's buffer.
* C `int` values are modelled as `Int` (no operation here approaches
  integer-overflow range on the inputs the claims concern).
-/

/-- Severity tag of a page, from `page_type_t` in the public header
(reproduced in `api.md`): ERROR, DEFAULT, INFO, INFO_DEBUG, WARNING. -/
inductive PageType where
  | error
  | default
  | info
  | infoDebug
  | warning
deriving DecidableEq

/-- The null byte `'\0'`. -/
def nul : Char := Char.ofNat 0

/-- One `page_list` record from `logger.c` (the intrusive `list_head` field
is represented by the page's position in the logger's `pages` list). -/
structure Page where
  type : PageType
  remaining : Int
  buffer : Int → Char

/-- The `logger_t` header: page buffer size, total page count, and the page
sequence in creation order. -/
structure Logger where
  page_buffer_size : Int
  total_pages : Int
  pages : List Page

/-- A one-byte store `b[i] = c` through a buffer pointer. -/
def writeByte (b : Int → Char) (i : Int) (c : Char) : Int → Char :=
  fun j => if j = i then c else b j

/-- The byte at offset `i` of the source string `data` (null padding past
the stored bytes; no claim depends on bytes beyond the string). -/
def strByte (data : List Char) (i : Int) : Char :=
  if i < 0 then nul else data.getD i.toNat nul

/-- `memcpy(b + off, data, s)`: bytes `[off, off + s)` of `b` are replaced
by the corresponding bytes of `data`. -/
def memcpy (b : Int → Char) (off : Int) (data : List Char) (s : Int) :
    Int → Char :=
  fun j => if off ≤ j ∧ j < off + s then strByte data (j - off) else b j

/-- `strlen(data)` for the modelled C string. -/
def strlen (data : List Char) : Int := data.length

/-- `memset(b, 0, n)`: zeroes bytes `[0, n)` of the buffer. -/
def memsetZero (n : Int) (b : Int → Char) : Int → Char :=
  fun j => if 0 ≤ j ∧ j < n then nul else b j

/-- Initialization of a single page by `page_init` in `logger.c`: the first
two buffer bytes are zeroed over the indeterminate fresh memory `junk`,
`remaining` is set to `page_size`, and the type to `PAGE_TYPE_DEFAULT`. -/
def page_init_one (page_size : Int) (junk : Int → Char) : Page :=
  { type := PageType.default
    remaining := page_size
    buffer := writeByte (writeByte junk 0 nul) 1 nul }

/-- `logger_create` from `logger.c`: rejects `page_amount ≤ 0` and
`page_size ≤ 0`, coerces `page_size` up to a minimum of 2, and on a
successful allocation (`alloc_ok`) builds `page_amount` freshly
initialized pages. -/
def logger_create (alloc_ok : Bool) (junk : Nat → Int → Char)
    (page_amount page_size : Int) : Option Logger :=
  if page_amount ≤ 0 ∨ page_size ≤ 0 then none
  else
    let ps := if page_size < 2 then 2 else page_size
    if alloc_ok then
      some { page_buffer_size := ps
             total_pages := page_amount
             pages := (List.range page_amount.toNat).map
               (fun i => page_init_one ps (junk i)) }
    else none

/-- The body of `__logger_add_data_helper` that runs on the matched page:
compute the append offset, truncate `size` to the remaining space, store
the terminator (and trailing null byte) when `endc` is non-null or just the
null byte otherwise, adjust `remaining`, copy the payload, and return the
(truncated) size. -/
def writeToPage (cap : Int) (data : List Char) (size : Int) (endc : Char)
    (p : Page) : Page × Int :=
  let offset := cap - p.remaining
  let s := if size > p.remaining then p.remaining else size
  let b1 := if endc ≠ nul then
      writeByte (writeByte p.buffer (offset + s) endc) (offset + s + 1) nul
    else
      writeByte p.buffer (offset + s) nul
  let rem := if endc ≠ nul then p.remaining - (s + 1) else p.remaining - s
  let b2 := memcpy b1 offset data s
  ({ p with remaining := rem, buffer := b2 }, s)

/-- The page-list traversal of `__logger_add_data_helper`: find the page at
the given index (counting down) and apply `writeToPage` to it; `none` when
the traversal runs off the end of the list. -/
def addDataGo (cap : Int) (data : List Char) (size : Int) (endc : Char) :
    List Page → Int → Option (List Page × Int)
  | [], _ => none
  | p :: ps, idx =>
    if idx = 0 then
      let w := writeToPage cap data size endc p
      some (w.1 :: ps, w.2)
    else
      match addDataGo cap data size endc ps (idx - 1) with
      | none => none
      | some (ps2, r) => some (p :: ps2, r)

/-- `__logger_add_data_helper` from `logger.c`: bounds-check the index
against `total_pages`, replace a non-positive `size` by `strlen(data)`,
then write to the matched page; returns the updated logger together with
the C return value (`-1` on failure). -/
def logger_add_data_helper (lg : Logger) (data : List Char) (size index : Int)
    (endc : Char) : Logger × Int :=
  if index < lg.total_pages ∧ 0 ≤ index then
    match addDataGo lg.page_buffer_size data
        (if size ≤ 0 then strlen data else size) endc lg.pages index with
    | none => (lg, -1)
    | some (ps, r) => ({ lg with pages := ps }, r)
  else (lg, -1)

/-- `logger_save_to_page`: helper call with a null terminator. -/
def logger_save_to_page (lg : Logger) (data : List Char) (size index : Int) :
    Logger × Int :=
  logger_add_data_helper lg data size index nul

/-- `logger_save_to_page_line`: helper call with a newline terminator. -/
def logger_save_to_page_line (lg : Logger) (data : List Char)
    (size index : Int) : Logger × Int :=
  logger_add_data_helper lg data size index '\n'

/-- Traversal of `logger_set_page_type`: set the type of the page at the
given index, `none` when the traversal runs off the end. -/
def setTypeGo (t : PageType) : List Page → Int → Option (List Page)
  | [], _ => none
  | p :: ps, idx =>
    if idx = 0 then some ({ p with type := t } :: ps)
    else
      match setTypeGo t ps (idx - 1) with
      | none => none
      | some ps2 => some (p :: ps2)

/-- `logger_set_page_type` from `logger.c`: returns the updated logger and
`0` on success, the unchanged logger and `-1` when the page is not found. -/
def logger_set_page_type (lg : Logger) (page_index : Int) (t : PageType) :
    Logger × Int :=
  match setTypeGo t lg.pages page_index with
  | none => (lg, -1)
  | some ps => ({ lg with pages := ps }, 0)

/-- Traversal of `logger_get_page_buffer`. -/
def getBufGo : List Page → Int → Option (Int → Char)
  | [], _ => none
  | p :: ps, idx => if idx = 0 then some p.buffer else getBufGo ps (idx - 1)

/-- `logger_get_page_buffer` from `logger.c`: the buffer of the page at the
given index, or `NULL` (`none`) when the page is not found. -/
def logger_get_page_buffer (lg : Logger) (page_index : Int) :
    Option (Int → Char) :=
  getBufGo lg.pages page_index

/-- The reset `logger_clear_page` applies to the matched page: `memset` the
whole buffer to zero, reset `remaining` to the page buffer size, and reset
the type to `PAGE_TYPE_DEFAULT`. -/
def clearedPage (cap : Int) (p : Page) : Page :=
  { type := PageType.default
    remaining := cap
    buffer := memsetZero cap p.buffer }

/-- Traversal of `logger_clear_page` (the C function itself counts the
index down). -/
def clearPageGo (cap : Int) : List Page → Int → List Page
  | [], _ => []
  | p :: ps, idx =>
    if idx = 0 then clearedPage cap p :: ps
    else p :: clearPageGo cap ps (idx - 1)

/-- `logger_clear_page` from `logger.c`. -/
def logger_clear_page (lg : Logger) (page_index : Int) : Logger :=
  { lg with pages := clearPageGo lg.page_buffer_size lg.pages page_index }

/-- The reset `logger_clear_all` applies to every page: zero the first two
buffer bytes (only), reset `remaining`, reset the type. -/
def clearAllPage (cap : Int) (p : Page) : Page :=
  { type := PageType.default
    remaining := cap
    buffer := writeByte (writeByte p.buffer 0 nul) 1 nul }

/-- `logger_clear_all` from `logger.c`. -/
def logger_clear_all (lg : Logger) : Logger :=
  { lg with pages := lg.pages.map (clearAllPage lg.page_buffer_size) }

/-- Read exactly `n` bytes of a buffer starting at offset `i`. -/
def readBytes (b : Int → Char) : Int → Nat → List Char
  | _, 0 => []
  | i, n + 1 => b i :: readBytes b (i + 1) n

/-- Read a buffer as a null-terminated C string starting at offset `i`,
with fuel bounding the scan. -/
def readCString (b : Int → Char) : Nat → Int → List Char
  | 0, _ => []
  | fuel + 1, i => if b i = nul then [] else b i :: readCString b fuel (i + 1)

/-- Placeholder page used only as the default of `List.getD`. -/
def dfltPage : Page :=
  { type := PageType.default, remaining := 0, buffer := fun _ => nul }

/-- Placeholder logger used only as the default of `Option.getD`. -/
def dfltLogger : Logger :=
  { page_buffer_size := 0, total_pages := 0, pages := [] }

/-- Applying `logger_clear_page` to each index `0, 1, …, n-1` in turn. -/
def clearSeqFrom (lg : Logger) : Nat → Logger
  | 0 => lg
  | n + 1 => logger_clear_page (clearSeqFrom lg n) n

/-- Applying `logger_clear_page` to every index `0 … page_amount - 1`. -/
def clearSeq (lg : Logger) : Logger := clearSeqFrom lg lg.total_pages.toNat

/-- Observable equality of two logger states: same header fields, same page
count, and every page agrees on type, remaining, and full buffer content. -/
def loggerObsEq (a b : Logger) : Prop :=
  a.page_buffer_size = b.page_buffer_size ∧
  a.total_pages = b.total_pages ∧
  a.pages.length = b.pages.length ∧
  ∀ k : Nat, k < a.pages.length →
    (a.pages.getD k dfltPage).type = (b.pages.getD k dfltPage).type ∧
    (a.pages.getD k dfltPage).remaining = (b.pages.getD k dfltPage).remaining ∧
    ∀ j : Int, (a.pages.getD k dfltPage).buffer j =
      (b.pages.getD k dfltPage).buffer j

/-- Arbitrary indeterminate content of freshly allocated memory, used for
the concrete test loggers. -/
def junkA : Nat → Int → Char := fun _ _ => 'A'

/-- A concrete logger with one page of capacity 2. -/
def lgA : Logger := (logger_create true junkA 1 2).getD dfltLogger

/-- `lgA` after completely filling its single page (remaining = 0). -/
def lgAfull : Logger := (logger_save_to_page lgA ['a', 'b'] 2 0).1

/-- A concrete logger with one page of capacity 4. -/
def lgB : Logger := (logger_create true junkA 1 4).getD dfltLogger

/-- `lgB` with its page tagged WARNING. -/
def lgBw : Logger := (logger_set_page_type lgB 0 PageType.warning).1

/-- The logger of the spec's worked scenario: `create(3, 16)`. -/
def lgC5 : Logger := (logger_create true junkA 3 16).getD dfltLogger

/-- Scenario step 1: write `"hello"`, size 5, terminator newline, page 0. -/
def stepC5a : Logger × Int :=
  logger_save_to_page_line lgC5 ['h', 'e', 'l', 'l', 'o'] 5 0

/-- Scenario step 2: write 20 bytes, no terminator, to page 0 afterwards. -/
def stepC5b : Logger × Int :=
  logger_save_to_page stepC5a.1
    ['w', 'o', 'r', 'l', 'd', '1', '2', '3', '4', '5', '6', '7', '8', '9',
     '0', '1', '2', '3', '4'] 20 0

/-- A concrete logger with one page of capacity 8 holding `"hello"`. -/
def lgC9w : Logger :=
  (logger_save_to_page ((logger_create true junkA 1 8).getD dfltLogger)
    ['h', 'e', 'l', 'l', 'o'] 5 0).1

/-- A two-page logger of capacity 16 with page 1 tagged WARNING: the
configuration on which a page-filling write to page 0 spills into page 1's
metadata in the C arena layout. -/
def lgC10w : Logger :=
  (logger_set_page_type ((logger_create true junkA 2 16).getD dfltLogger)
    1 PageType.warning).1

/-- Sixteen bytes of payload, exactly page 0's capacity in `lgC10w`. -/
def dataC10 : List Char :=
  ['L', 'o', 'g', 'F', 'l', 'o', 'w', 'S', 'p', 'i', 'l', 'l', 'T', 'e',
   's', 't']

/-- Page 0 of `lgC5` (the page the scenario write targets). -/
def pC3 : Page := (lgC5.pages.getD 0 dfltPage)

/-- The state and return value of the scenario's first write. -/
def qC3 : Page := (stepC5a.1.pages.getD 0 dfltPage)


/-! ## Helper lemmas about the write path -/

/-- The traversal of `__logger_add_data_helper` rewrites the matched page
with `writeToPage` and leaves the rest of the list unchanged. -/
theorem addDataGo_eq (cap : Int) (data : List Char) (sz : Int) (endc : Char) :
    ∀ (ps : List Page) (idx : Int) (p : Page), 0 ≤ idx →
      ps.get? idx.toNat = some p →
      addDataGo cap data sz endc ps idx =
        some (ps.set idx.toNat (writeToPage cap data sz endc p).1,
              (writeToPage cap data sz endc p).2) := by
  intro ps
  induction ps with
  | nil => intro idx p h0 hp; simp [List.get?] at hp
  | cons q ps ih =>
    intro idx p h0 hp
    by_cases hz : idx = 0
    · subst hz
      simp only [Int.toNat_zero, List.get?_cons_zero, Option.some.injEq] at hp
      subst hp
      simp [addDataGo, List.set]
    · have h1 : 0 ≤ idx - 1 := by omega
      have hn : idx.toNat = (idx - 1).toNat + 1 := by omega
      rw [hn] at hp
      rw [List.get?_cons_succ] at hp
      have hrec := ih (idx - 1) p h1 hp
      rw [hn]
      simp only [addDataGo, if_neg hz, hrec, List.set]

/-- `__logger_add_data_helper` on a valid index: the matched page is
replaced by `writeToPage` of the old page, and the return value is the
truncated size. -/
theorem logger_add_data_helper_eq (lg : Logger) (data : List Char)
    (size index : Int) (endc : Char) (p : Page)
    (h0 : 0 ≤ index) (h1 : index < lg.total_pages)
    (hp : lg.pages.get? index.toNat = some p) :
    logger_add_data_helper lg data size index endc =
      ({ lg with pages := (lg.pages.set index.toNat
          (writeToPage lg.page_buffer_size data
            (if size ≤ 0 then strlen data else size) endc p).1) },
       (writeToPage lg.page_buffer_size data
          (if size ≤ 0 then strlen data else size) endc p).2) := by
  unfold logger_add_data_helper
  rw [if_pos ⟨h1, h0⟩, addDataGo_eq _ _ _ _ _ _ _ h0 hp]

/-- The value `__logger_add_data_helper` returns for the matched page is
`min size remaining`. -/
theorem writeToPage_snd (cap : Int) (data : List Char) (sz : Int)
    (endc : Char) (p : Page) :
    (writeToPage cap data sz endc p).2 = min sz p.remaining := by
  simp only [writeToPage]
  omega

/-- `remaining` after `writeToPage`: decreased by the truncated size, plus
one more for a non-null terminator. -/
theorem writeToPage_remaining (cap : Int) (data : List Char) (sz : Int)
    (endc : Char) (p : Page) :
    (writeToPage cap data sz endc p).1.remaining =
      if endc ≠ nul then p.remaining - (min sz p.remaining + 1)
      else p.remaining - min sz p.remaining := by
  simp only [writeToPage]
  by_cases he : endc = nul
  · simp only [he, ne_eq, not_true_eq_false, if_false, ite_false]
    omega
  · simp only [if_pos he, ne_eq, he, not_false_eq_true, if_true, ite_true]
    omega

/-- Payload bytes after `writeToPage`: byte `offset + k` holds byte `k` of
the source string, for `k` below the truncated size. -/
theorem writeToPage_buffer_payload (cap : Int) (data : List Char) (sz : Int)
    (endc : Char) (p : Page) (k : Int) (h0 : 0 ≤ k)
    (hk : k < min sz p.remaining) :
    (writeToPage cap data sz endc p).1.buffer (cap - p.remaining + k) =
      strByte data k := by
  simp only [writeToPage, memcpy]
  rw [if_pos (by constructor <;> omega)]
  have h : cap - p.remaining + k - (cap - p.remaining) = k := by omega
  rw [h]

/-- Terminator bytes after `writeToPage` with a non-null terminator: the
terminator sits right after the payload, followed by a null byte. -/
theorem writeToPage_buffer_term (cap : Int) (data : List Char) (sz : Int)
    (endc : Char) (p : Page) (he : endc ≠ nul) :
    (writeToPage cap data sz endc p).1.buffer
        (cap - p.remaining + min sz p.remaining) = endc ∧
    (writeToPage cap data sz endc p).1.buffer
        (cap - p.remaining + min sz p.remaining + 1) = nul := by
  have hs : (if sz > p.remaining then p.remaining else sz)
      = min sz p.remaining := by omega
  simp only [writeToPage, memcpy, writeByte, if_pos he, hs]
  constructor <;> simp

/-- Null byte after `writeToPage` with a null terminator: it sits right
after the payload. -/
theorem writeToPage_buffer_nul (cap : Int) (data : List Char) (sz : Int)
    (p : Page) :
    (writeToPage cap data sz nul p).1.buffer
        (cap - p.remaining + min sz p.remaining) = nul := by
  have hs : (if sz > p.remaining then p.remaining else sz)
      = min sz p.remaining := by omega
  simp [writeToPage, memcpy, writeByte, hs]

/-! ## Helper lemmas about the lookup traversals -/

/-- A negative index never matches the running counter: `setTypeGo` fails. -/
theorem setTypeGo_neg (t : PageType) :
    ∀ (ps : List Page) (idx : Int), idx < 0 → setTypeGo t ps idx = none := by
  intro ps
  induction ps with
  | nil => intro idx h; rfl
  | cons q ps ih =>
    intro idx h
    simp only [setTypeGo, if_neg (by omega : ¬ idx = 0),
      ih (idx - 1) (by omega)]

/-- An index at or past the end of the list: `setTypeGo` fails. -/
theorem setTypeGo_big (t : PageType) :
    ∀ (ps : List Page) (idx : Int), 0 ≤ idx → ps.length ≤ idx.toNat →
      setTypeGo t ps idx = none := by
  intro ps
  induction ps with
  | nil => intro idx h0 hl; rfl
  | cons q ps ih =>
    intro idx h0 hl
    simp only [List.length_cons] at hl
    have hz : ¬ idx = 0 := by omega
    simp only [setTypeGo, if_neg hz,
      ih (idx - 1) (by omega) (by omega)]

/-- A negative index never matches the running counter: `getBufGo` fails. -/
theorem getBufGo_neg :
    ∀ (ps : List Page) (idx : Int), idx < 0 → getBufGo ps idx = none := by
  intro ps
  induction ps with
  | nil => intro idx h; rfl
  | cons q ps ih =>
    intro idx h
    simp only [getBufGo, if_neg (by omega : ¬ idx = 0),
      ih (idx - 1) (by omega)]

/-- An index at or past the end of the list: `getBufGo` fails. -/
theorem getBufGo_big :
    ∀ (ps : List Page) (idx : Int), 0 ≤ idx → ps.length ≤ idx.toNat →
      getBufGo ps idx = none := by
  intro ps
  induction ps with
  | nil => intro idx h0 hl; rfl
  | cons q ps ih =>
    intro idx h0 hl
    simp only [List.length_cons] at hl
    have hz : ¬ idx = 0 := by omega
    simp only [getBufGo, if_neg hz, ih (idx - 1) (by omega) (by omega)]

/-! ## Helper lemmas about clearing -/

/-- `logger_clear_page`'s traversal preserves the list length. -/
theorem clearPageGo_length (cap : Int) :
    ∀ (ps : List Page) (idx : Int),
      (clearPageGo cap ps idx).length = ps.length := by
  intro ps
  induction ps with
  | nil => intro idx; rfl
  | cons q ps ih =>
    intro idx
    by_cases hz : idx = 0
    · simp [clearPageGo, hz]
    · simp [clearPageGo, if_neg hz, ih]

/-- Pointwise description of `logger_clear_page`'s traversal: the page at
the (non-negative) target index is reset, every other page is unchanged. -/
theorem clearPageGo_get? (cap : Int) :
    ∀ (ps : List Page) (idx : Int) (k : Nat), 0 ≤ idx →
      (clearPageGo cap ps idx).get? k =
        if (k : Int) = idx then (ps.get? k).map (clearedPage cap)
        else ps.get? k := by
  intro ps
  induction ps with
  | nil =>
    intro idx k h0
    simp [clearPageGo, List.get?]
  | cons q ps ih =>
    intro idx k h0
    by_cases hz : idx = 0
    · subst hz
      match k with
      | 0 => simp [clearPageGo]
      | k + 1 =>
        rw [if_neg (by push_cast; omega)]
        simp [clearPageGo, List.get?_cons_succ]
    · rw [clearPageGo]
      rw [if_neg hz]
      match k with
      | 0 =>
        rw [if_neg (by push_cast; omega)]
        simp [List.get?_cons_zero]
      | k + 1 =>
        rw [List.get?_cons_succ, List.get?_cons_succ,
          ih (idx - 1) k (by omega)]
        by_cases hk : (k : Int) = idx - 1
        · rw [if_pos hk, if_pos (by push_cast; omega)]
        · rw [if_neg hk, if_neg (by push_cast at hk ⊢; omega)]

/-- `List.getD` is `List.get?` followed by a default. -/
theorem getD_eq_get? (l : List Page) (n : Nat) :
    l.getD n dfltPage = (l.get? n).getD dfltPage := rfl

/-- Repeated single-page clears keep the logger header fields. -/
theorem clearSeqFrom_header (lg : Logger) :
    ∀ m : Nat, (clearSeqFrom lg m).page_buffer_size = lg.page_buffer_size ∧
      (clearSeqFrom lg m).total_pages = lg.total_pages := by
  intro m
  induction m with
  | zero => exact ⟨rfl, rfl⟩
  | succ n ih => simpa [clearSeqFrom, logger_clear_page] using ih

/-- Repeated single-page clears keep the page count. -/
theorem clearSeqFrom_length (lg : Logger) :
    ∀ m : Nat, (clearSeqFrom lg m).pages.length = lg.pages.length := by
  intro m
  induction m with
  | zero => rfl
  | succ n ih =>
    simp [clearSeqFrom, logger_clear_page, clearPageGo_length, ih]

/-- Pointwise description of applying `logger_clear_page` to the indices
`0 … m-1` in turn: pages below `m` are reset, the rest are unchanged. -/
theorem clearSeqFrom_get? (lg : Logger) :
    ∀ (m : Nat) (k : Nat),
      (clearSeqFrom lg m).pages.get? k =
        if k < m then
          (lg.pages.get? k).map (clearedPage lg.page_buffer_size)
        else lg.pages.get? k := by
  intro m
  induction m with
  | zero => intro k; rw [if_neg (Nat.not_lt_zero k)]; rfl
  | succ n ih =>
    intro k
    have hcap := (clearSeqFrom_header lg n).1
    show (logger_clear_page (clearSeqFrom lg n) n).pages.get? k = _
    simp only [logger_clear_page]
    rw [clearPageGo_get? _ _ _ _ (by exact_mod_cast Nat.zero_le n), hcap,
      ih k]
    by_cases hk : k = n
    · subst hk
      rw [if_pos (by omega), if_neg (by omega), if_pos (by omega)]
    · by_cases hlt : k < n
      · rw [if_neg (by omega), if_pos hlt, if_pos (by omega)]
      · rw [if_neg (by omega), if_neg hlt, if_neg (by omega)]

/-- A successful `get?` means the index is within the list. -/
theorem get?_some_lt {l : List Page} {n : Nat} {a : Page}
    (h : l.get? n = some a) : n < l.length := by
  by_contra hc
  rw [List.get?_len_le (by omega)] at h
  cases h

/-! ## Claim theorems -/

/-- C2: for every write to a valid page, the effective size (which is also
the helper's return value) is `min(requested_size, page.remaining)`, where
a `requested_size ≤ 0` is first replaced by `strlen(data)`; an oversized
write is silently truncated (for a page with non-negative remaining space
the return value is never the `-1` rejection value). -/
theorem C2_effective_size_min (lg : Logger) (data : List Char)
    (size index : Int) (endc : Char) (p : Page)
    (h0 : 0 ≤ index) (h1 : index < lg.total_pages)
    (hp : lg.pages.get? index.toNat = some p) :
    (logger_add_data_helper lg data size index endc).2 =
      min (if size ≤ 0 then strlen data else size) p.remaining ∧
    (0 ≤ p.remaining →
      0 ≤ (logger_add_data_helper lg data size index endc).2) := by
  rw [logger_add_data_helper_eq lg data size index endc p h0 h1 hp]
  have hsnd := writeToPage_snd lg.page_buffer_size data
    (if size ≤ 0 then strlen data else size) endc p
  refine ⟨hsnd, ?_⟩
  intro hrem
  have hnn : 0 ≤ (if size ≤ 0 then strlen data else size) := by
    have h : (0 : Int) ≤ data.length := by positivity
    simp only [strlen]
    omega
  show 0 ≤ (writeToPage lg.page_buffer_size data
    (if size ≤ 0 then strlen data else size) endc p).2
  rw [hsnd]
  omega

/-- Witness for C2 at the scenario logger: writing one byte to page 0. -/
theorem C2_effective_size_min_witness :
    ((0 : Int) ≤ 0 ∧ (0 : Int) < lgC5.total_pages ∧
      lgC5.pages.get? (0 : Int).toNat = some pC3) ∧
    (logger_add_data_helper lgC5 ['x'] 1 0 nul).2 =
      min (if (1 : Int) ≤ 0 then strlen ['x'] else 1) pC3.remaining :=
  ⟨⟨le_refl 0, by decide, rfl⟩,
   (C2_effective_size_min lgC5 ['x'] 1 0 nul pC3 (by decide) (by decide)
     rfl).1⟩

/-- C3: a write to a valid page with effective size `s` appends at offset
`capacity - remaining`: with a non-null terminator the written region is
`data[0..s)` followed by the terminator then a null byte and `remaining`
decreases by `s + 1`; with a null terminator the region is `data[0..s)`
followed by a null byte and `remaining` decreases by `s`; in both cases the
call returns `s` (the payload size, terminator excluded). -/
theorem C3_written_region (lg : Logger) (data : List Char)
    (size index : Int) (endc : Char) (p : Page)
    (h0 : 0 ≤ index) (h1 : index < lg.total_pages)
    (hp : lg.pages.get? index.toNat = some p) (q : Page)
    (hq : (logger_add_data_helper lg data size index endc).1.pages.get?
        index.toNat = some q) :
    (logger_add_data_helper lg data size index endc).2 =
      min (if size ≤ 0 then strlen data else size) p.remaining ∧
    (∀ k : Int, 0 ≤ k →
      k < min (if size ≤ 0 then strlen data else size) p.remaining →
      q.buffer (lg.page_buffer_size - p.remaining + k) = strByte data k) ∧
    (endc ≠ nul →
      q.buffer (lg.page_buffer_size - p.remaining +
        min (if size ≤ 0 then strlen data else size) p.remaining) = endc ∧
      q.buffer (lg.page_buffer_size - p.remaining +
        min (if size ≤ 0 then strlen data else size) p.remaining + 1) =
        nul ∧
      q.remaining = p.remaining -
        (min (if size ≤ 0 then strlen data else size) p.remaining + 1)) ∧
    (endc = nul →
      q.buffer (lg.page_buffer_size - p.remaining +
        min (if size ≤ 0 then strlen data else size) p.remaining) = nul ∧
      q.remaining = p.remaining -
        min (if size ≤ 0 then strlen data else size) p.remaining) := by
  rw [logger_add_data_helper_eq lg data size index endc p h0 h1 hp] at hq ⊢
  have hlt : index.toNat < lg.pages.length := get?_some_lt hp
  have hq2 : (lg.pages.set index.toNat
      (writeToPage lg.page_buffer_size data
        (if size ≤ 0 then strlen data else size) endc p).1).get?
      index.toNat = some q := hq
  rw [List.get?_set_eq_of_lt _ hlt] at hq2
  have hqw : q = (writeToPage lg.page_buffer_size data
      (if size ≤ 0 then strlen data else size) endc p).1 :=
    (Option.some.injEq _ _).mp hq2 |>.symm
  subst hqw
  refine ⟨writeToPage_snd lg.page_buffer_size data
    (if size ≤ 0 then strlen data else size) endc p, ?_, ?_, ?_⟩
  · intro k hk0 hks
    exact writeToPage_buffer_payload lg.page_buffer_size data
      (if size ≤ 0 then strlen data else size) endc p k hk0 hks
  · intro he
    obtain ⟨ht1, ht2⟩ := writeToPage_buffer_term lg.page_buffer_size data
      (if size ≤ 0 then strlen data else size) endc p he
    refine ⟨ht1, ht2, ?_⟩
    rw [writeToPage_remaining, if_pos he]
  · intro he
    subst he
    refine ⟨writeToPage_buffer_nul _ _ _ _, ?_⟩
    rw [writeToPage_remaining, if_neg (by simp)]

/-- Witness for C3 at the scenario's first write (newline terminator). -/
theorem C3_written_region_witness :
    ((0 : Int) ≤ 0 ∧ (0 : Int) < lgC5.total_pages ∧ ('\n' : Char) ≠ nul) ∧
    (logger_add_data_helper lgC5 ['h', 'e', 'l', 'l', 'o'] 5 0 '\n').2 =
      min (if (5 : Int) ≤ 0 then strlen ['h', 'e', 'l', 'l', 'o'] else 5)
        pC3.remaining :=
  ⟨⟨le_refl 0, by decide, by decide⟩,
   (C3_written_region lgC5 ['h', 'e', 'l', 'l', 'o'] 5 0 '\n' pC3
     (by decide) (by decide) rfl qC3 rfl).1⟩

/-- C5: the spec's worked scenario on `create(3, 16)`: the first write
(`"hello"`, size 5, newline terminator, page 0) returns 5, leaves
remaining 10 and the page reading `"hello\n"`; the second write (20 bytes,
no terminator) is truncated to 10 bytes, returns 10, appends the truncated
payload after `"hello\n"`, and leaves remaining 0. -/
theorem C5_worked_scenario :
    lgC5.total_pages = 3 ∧ lgC5.page_buffer_size = 16 ∧
    stepC5a.2 = 5 ∧
    (stepC5a.1.pages.getD 0 dfltPage).remaining = 10 ∧
    readCString (stepC5a.1.pages.getD 0 dfltPage).buffer 18 0 =
      ['h', 'e', 'l', 'l', 'o', '\n'] ∧
    stepC5b.2 = 10 ∧
    (stepC5b.1.pages.getD 0 dfltPage).remaining = 0 ∧
    readBytes (stepC5b.1.pages.getD 0 dfltPage).buffer 0 16 =
      ['h', 'e', 'l', 'l', 'o', '\n', 'w', 'o', 'r', 'l', 'd', '1', '2',
       '3', '4', '5'] := by
  decide

/-- C1 (code bug): a truncated line write drives `remaining` to `-1`.  On
`create(1, 2)` the page starts with `remaining = 2`; a line write of two
bytes is truncated to the effective size 2 and then `remaining -= 2 + 1`
leaves `remaining = -1 < 0`, violating `0 ≤ remaining ≤ capacity`. -/
theorem C1_line_write_underflows_remaining :
    (logger_create true junkA 1 2).isSome = true ∧
    (lgA.pages.getD 0 dfltPage).remaining = 2 ∧
    (logger_save_to_page_line lgA ['a', 'b'] 2 0).2 = 2 ∧
    ((logger_save_to_page_line lgA ['a', 'b'] 2 0).1.pages.getD 0
      dfltPage).remaining = -1 := by
  decide

/-- Counterexample to C4: a write to a valid page that is already at zero
remaining capacity returns `0` (the truncated size), not the distinguished
error value `-1`. -/
theorem C4_counterexample_full_page_returns_zero :
    (lgAfull.pages.getD 0 dfltPage).remaining = 0 ∧
    lgAfull.total_pages = 1 ∧
    (logger_save_to_page lgAfull ['c', 'd'] 2 0).2 = 0 ∧
    ¬ (logger_save_to_page lgAfull ['c', 'd'] 2 0).2 = -1 := by
  decide

/-- C4 (amended): the save entry points return `-1` exactly when the
target page does not exist (index negative or at least `page_amount`);
on a valid index the return value is the non-negative number of payload
bytes written — in particular a write to a page with zero remaining
capacity returns `0`, not an error. -/
theorem C4_error_iff_invalid_index (lg : Logger) (data : List Char)
    (size index : Int) (endc : Char)
    (hlen : lg.pages.length = lg.total_pages.toNat)
    (hrem : ∀ p ∈ lg.pages, 0 ≤ p.remaining) :
    ((logger_add_data_helper lg data size index endc).2 = -1 ↔
      (index < 0 ∨ lg.total_pages ≤ index)) ∧
    (0 ≤ index → index < lg.total_pages →
      0 ≤ (logger_add_data_helper lg data size index endc).2) := by
  by_cases hvalid : index < lg.total_pages ∧ 0 ≤ index
  · obtain ⟨h1, h0⟩ := hvalid
    have hlt : index.toNat < lg.pages.length := by omega
    have hp := List.get?_eq_get hlt
    have hmem : lg.pages.get ⟨index.toNat, hlt⟩ ∈ lg.pages :=
      List.get_mem lg.pages index.toNat hlt
    have hrem2 := hrem _ hmem
    have hnn : 0 ≤ (if size ≤ 0 then strlen data else size) := by
      have h : (0 : Int) ≤ data.length := by positivity
      simp only [strlen]
      omega
    rw [logger_add_data_helper_eq lg data size index endc _ h0 h1 hp]
    have hsnd := writeToPage_snd lg.page_buffer_size data
      (if size ≤ 0 then strlen data else size) endc
      (lg.pages.get ⟨index.toNat, hlt⟩)
    constructor
    · constructor
      · intro hc
        have hc2 : (writeToPage lg.page_buffer_size data
            (if size ≤ 0 then strlen data else size) endc
            (lg.pages.get ⟨index.toNat, hlt⟩)).2 = -1 := hc
        rw [hsnd] at hc2
        omega
      · intro hc
        omega
    · intro _ _
      show 0 ≤ (writeToPage lg.page_buffer_size data
        (if size ≤ 0 then strlen data else size) endc
        (lg.pages.get ⟨index.toNat, hlt⟩)).2
      rw [hsnd]
      omega
  · unfold logger_add_data_helper
    rw [if_neg hvalid]
    refine ⟨⟨fun _ => by omega, fun _ => rfl⟩, ?_⟩
    intro h0 h1
    exact absurd ⟨h1, h0⟩ hvalid

/-- Witness for C4 (amended) at the one-page logger and the out-of-range
index 5: the call fails with `-1`. -/
theorem C4_error_iff_invalid_index_witness :
    (lgA.pages.length = lgA.total_pages.toNat ∧
      ∀ p ∈ lgA.pages, 0 ≤ p.remaining) ∧
    ((logger_add_data_helper lgA ['a'] 1 5 nul).2 = -1 ↔
      ((5 : Int) < 0 ∨ lgA.total_pages ≤ 5)) :=
  ⟨⟨by decide, by decide⟩,
   (C4_error_iff_invalid_index lgA ['a'] 1 5 nul (by decide)
     (by decide)).1⟩

/-- C6: `logger_create` fails (returns `NULL`) exactly when
`page_amount ≤ 0`, `page_size ≤ 0`, or the allocator fails; on success the
handle has `page_amount` pages, each with capacity `max page_size 2`
(coerced up to a minimum of 2), `remaining` equal to that capacity, type
DEFAULT, and an empty buffer (first two bytes null, so the page reads as
the empty string). -/
theorem C6_create_spec (ok : Bool) (junk : Nat → Int → Char) (n s : Int) :
    (logger_create ok junk n s = none ↔
      (n ≤ 0 ∨ s ≤ 0 ∨ ok = false)) ∧
    ∀ lg, logger_create ok junk n s = some lg →
      lg.total_pages = n ∧
      lg.pages.length = n.toNat ∧
      lg.page_buffer_size = max s 2 ∧
      ∀ p ∈ lg.pages, p.remaining = lg.page_buffer_size ∧
        p.type = PageType.default ∧ p.buffer 0 = nul ∧ p.buffer 1 = nul := by
  constructor
  · simp only [logger_create]
    split_ifs with hbad hok
    · simp only [true_iff]
      rcases hbad with hb | hb
      · exact Or.inl hb
      · exact Or.inr (Or.inl hb)
    · simp only [reduceCtorEq, false_iff]
      push_neg at hbad
      intro hcon
      rcases hcon with hc | hc | hc
      · omega
      · omega
      · rw [hok] at hc
        cases hc
    · simp only [true_iff]
      refine Or.inr (Or.inr ?_)
      cases ok
      · rfl
      · exact absurd rfl hok
  · intro lg hlg
    simp only [logger_create] at hlg
    have hmax : (if s < 2 then (2 : Int) else s) = max s 2 := by omega
    rw [hmax] at hlg
    split_ifs at hlg with hbad hok
    rw [Option.some.injEq] at hlg
    subst hlg
    refine ⟨rfl, by simp, rfl, ?_⟩
    intro p hp
    rw [List.mem_map] at hp
    obtain ⟨i, hi, rfl⟩ := hp
    refine ⟨rfl, rfl, ?_, ?_⟩
    · show writeByte (writeByte (junk i) 0 nul) 1 nul 0 = nul
      simp [writeByte]
    · show writeByte (writeByte (junk i) 0 nul) 1 nul 1 = nul
      simp [writeByte]

/-- Witness for C6: a successful creation with one page of size 1 (coerced
up to capacity 2). -/
theorem C6_create_spec_witness :
    ((logger_create true junkA 1 1 = none ↔
      ((1 : Int) ≤ 0 ∨ (1 : Int) ≤ 0 ∨ true = false)) ∧
     (logger_create true junkA 1 1).isSome = true) ∧
    ∀ p ∈ ((logger_create true junkA 1 1).getD dfltLogger).pages,
      p.remaining = ((logger_create true junkA 1 1).getD
        dfltLogger).page_buffer_size ∧
      p.type = PageType.default ∧ p.buffer 0 = nul ∧ p.buffer 1 = nul :=
  ⟨⟨(C6_create_spec true junkA 1 1).1, by decide⟩,
   ((C6_create_spec true junkA 1 1).2
     ((logger_create true junkA 1 1).getD dfltLogger) rfl).2.2.2⟩

/-- C7: `logger_set_page_type` and `logger_get_page_buffer` on an index
that is negative or at least `page_amount` return the not-found results
(`-1` resp. `NULL`) and the logger state is returned unchanged (no page's
type, remaining, or buffer is mutated). -/
theorem C7_invalid_index_not_found (lg : Logger) (idx : Int) (t : PageType)
    (hlen : lg.pages.length = lg.total_pages.toNat)
    (hbad : idx < 0 ∨ lg.total_pages ≤ idx) :
    logger_set_page_type lg idx t = (lg, -1) ∧
    logger_get_page_buffer lg idx = none := by
  have hset : setTypeGo t lg.pages idx = none := by
    by_cases hneg : idx < 0
    · exact setTypeGo_neg t lg.pages idx hneg
    · refine setTypeGo_big t lg.pages idx (by omega) ?_
      rw [hlen]
      omega
  have hget : getBufGo lg.pages idx = none := by
    by_cases hneg : idx < 0
    · exact getBufGo_neg lg.pages idx hneg
    · refine getBufGo_big lg.pages idx (by omega) ?_
      rw [hlen]
      omega
  constructor
  · unfold logger_set_page_type
    rw [hset]
  · unfold logger_get_page_buffer
    exact hget

/-- Witness for C7 at the one-page logger and index 5. -/
theorem C7_invalid_index_not_found_witness :
    (lgA.pages.length = lgA.total_pages.toNat ∧ lgA.total_pages ≤ 5) ∧
    logger_set_page_type lgA 5 PageType.info = (lgA, -1) ∧
    logger_get_page_buffer lgA 5 = none :=
  ⟨⟨by decide, by decide⟩,
   C7_invalid_index_not_found lgA 5 PageType.info (by decide)
     (Or.inr (by decide))⟩

/-- C8 (code bug): `logger_clear_page` resets the page type to DEFAULT
(`logger.c` line 292), although `api.md` documents "Preserves page type
setting" for it.  On a page tagged WARNING, a single-page clear leaves
DEFAULT, not WARNING; clear-all also resets to DEFAULT (which matches the
claim's second half). -/
theorem C8_single_clear_resets_type :
    (lgBw.pages.getD 0 dfltPage).type = PageType.warning ∧
    ((logger_clear_page lgBw 0).pages.getD 0 dfltPage).type =
      PageType.default ∧
    ¬ ((logger_clear_page lgBw 0).pages.getD 0 dfltPage).type =
      PageType.warning ∧
    ((logger_clear_all lgBw).pages.getD 0 dfltPage).type =
      PageType.default := by
  decide

/-- `logger_clear_all` zeroes the first two bytes of a page's buffer. -/
theorem clearAllPage_buffer0 (cap : Int) (p : Page) :
    (clearAllPage cap p).buffer 0 = nul := by
  simp [clearAllPage, writeByte]

/-- A fully cleared page's buffer is null anywhere inside the capacity. -/
theorem clearedPage_buffer_lt (cap : Int) (p : Page) (j : Int)
    (h0 : 0 ≤ j) (hj : j < cap) : (clearedPage cap p).buffer j = nul := by
  simp [clearedPage, memsetZero, h0, hj]

/-- The per-page reset of `logger_clear_all` is idempotent on buffers. -/
theorem clearAllPage_idem (cap : Int) (p : Page) (j : Int) :
    (clearAllPage cap (clearAllPage cap p)).buffer j =
      (clearAllPage cap p).buffer j := by
  by_cases h1 : j = 1
  · subst h1
    simp [clearAllPage, writeByte]
  · by_cases h0 : j = 0
    · subst h0
      simp [clearAllPage, writeByte]
    · simp [clearAllPage, writeByte, h0, h1]

/-- Counterexample to C9: on a one-page logger holding `"hello"`,
`logger_clear_all` is *not* observably identical to clearing each page with
`logger_clear_page`: clear-all zeroes only the first two buffer bytes, so
byte 2 still reads `'l'` instead of `'\0'`. -/
theorem C9_counterexample_clear_all_not_obs_eq :
    ¬ loggerObsEq (logger_clear_all lgC9w) (clearSeq lgC9w) := by
  intro h
  have hbyte := (h.2.2.2 0 (by decide)).2.2 2
  exact absurd hbyte (by decide)

/-- C9 (amended): after `logger_clear_all`, the state agrees with applying
`logger_clear_page` to every index `0 … page_amount-1` in turn on the
header fields, the page count, every page's type and remaining counter,
and on the first two buffer bytes — both leave every page reading as the
empty string — but not on full buffer content (clear-all zeroes only the
first two bytes of each buffer, a single-page clear zeroes the whole
buffer); moreover `logger_clear_all` is idempotent. -/
theorem C9_clear_all_vs_each_page (lg : Logger)
    (hlen : lg.pages.length = lg.total_pages.toNat)
    (hcap : 2 ≤ lg.page_buffer_size) :
    ((logger_clear_all lg).page_buffer_size =
        (clearSeq lg).page_buffer_size ∧
      (logger_clear_all lg).total_pages = (clearSeq lg).total_pages ∧
      (logger_clear_all lg).pages.length = (clearSeq lg).pages.length) ∧
    (∀ k : Nat, k < (logger_clear_all lg).pages.length →
      ((logger_clear_all lg).pages.getD k dfltPage).type =
        ((clearSeq lg).pages.getD k dfltPage).type ∧
      ((logger_clear_all lg).pages.getD k dfltPage).remaining =
        ((clearSeq lg).pages.getD k dfltPage).remaining ∧
      ((logger_clear_all lg).pages.getD k dfltPage).buffer 0 = nul ∧
      ((clearSeq lg).pages.getD k dfltPage).buffer 0 = nul ∧
      ((logger_clear_all lg).pages.getD k dfltPage).buffer 1 =
        ((clearSeq lg).pages.getD k dfltPage).buffer 1) ∧
    loggerObsEq (logger_clear_all (logger_clear_all lg))
      (logger_clear_all lg) := by
  have hbh := clearSeqFrom_header lg lg.total_pages.toNat
  have hbl := clearSeqFrom_length lg lg.total_pages.toNat
  refine ⟨⟨hbh.1.symm, hbh.2.symm, ?_⟩, ?_, ?_⟩
  · show (lg.pages.map (clearAllPage lg.page_buffer_size)).length =
      (clearSeq lg).pages.length
    rw [List.length_map]
    exact hbl.symm
  · intro k hk
    have hk2 : k < lg.pages.length := by
      simpa [logger_clear_all] using hk
    have hkt : k < lg.total_pages.toNat := by omega
    have hp : lg.pages.get? k = some (lg.pages.get ⟨k, hk2⟩) :=
      List.get?_eq_get hk2
    have hgetb : (clearSeq lg).pages.get? k =
        some (clearedPage lg.page_buffer_size (lg.pages.get ⟨k, hk2⟩)) := by
      show (clearSeqFrom lg lg.total_pages.toNat).pages.get? k = _
      rw [clearSeqFrom_get?, if_pos hkt, hp]
      rfl
    have hL : (logger_clear_all lg).pages.getD k dfltPage =
        clearAllPage lg.page_buffer_size (lg.pages.get ⟨k, hk2⟩) := by
      show (lg.pages.map (clearAllPage lg.page_buffer_size)).getD k
        dfltPage = _
      rw [getD_eq_get?, List.get?_map, hp]
      rfl
    have hR : (clearSeq lg).pages.getD k dfltPage =
        clearedPage lg.page_buffer_size (lg.pages.get ⟨k, hk2⟩) := by
      rw [getD_eq_get?, hgetb]
      rfl
    rw [hL, hR]
    refine ⟨rfl, rfl, clearAllPage_buffer0 _ _, ?_, ?_⟩
    · exact clearedPage_buffer_lt _ _ 0 le_rfl (by omega)
    · rw [clearedPage_buffer_lt _ _ 1 (by omega) (by omega)]
      simp [clearAllPage, writeByte]
  · refine ⟨rfl, rfl, by simp [logger_clear_all], ?_⟩
    intro k hk
    have hk2 : k < lg.pages.length := by
      simpa [logger_clear_all] using hk
    have hp : lg.pages.get? k = some (lg.pages.get ⟨k, hk2⟩) :=
      List.get?_eq_get hk2
    have hL : (logger_clear_all (logger_clear_all lg)).pages.getD k
        dfltPage = clearAllPage lg.page_buffer_size
          (clearAllPage lg.page_buffer_size (lg.pages.get ⟨k, hk2⟩)) := by
      show ((lg.pages.map (clearAllPage lg.page_buffer_size)).map
        (clearAllPage lg.page_buffer_size)).getD k dfltPage = _
      rw [getD_eq_get?, List.get?_map, List.get?_map, hp]
      rfl
    have hR : (logger_clear_all lg).pages.getD k dfltPage =
        clearAllPage lg.page_buffer_size (lg.pages.get ⟨k, hk2⟩) := by
      show (lg.pages.map (clearAllPage lg.page_buffer_size)).getD k
        dfltPage = _
      rw [getD_eq_get?, List.get?_map, hp]
      rfl
    rw [hL, hR]
    exact ⟨rfl, rfl, fun j => clearAllPage_idem _ _ j⟩

/-- Witness for C9 (amended) at the one-page logger holding `"hello"`. -/
theorem C9_clear_all_vs_each_page_witness :
    (lgC9w.pages.length = lgC9w.total_pages.toNat ∧
      2 ≤ lgC9w.page_buffer_size) ∧
    (logger_clear_all lgC9w).total_pages = (clearSeq lgC9w).total_pages :=
  ⟨⟨by decide, by decide⟩,
   (C9_clear_all_vs_each_page lgC9w (by decide) (by decide)).1.2.1⟩

/-- C10 (code bug): the frame property fails in the source because a
page-filling write stores its terminating null byte one past the page's
capacity.  On `create(2, 16)` with page 1 tagged WARNING, writing 16 bytes
to page 0 is accepted in full (returns 16, remaining becomes 0) and stores
the null byte at buffer offset 16 = capacity, outside page 0's byte range
`[0, 16)` — evaluated here as the byte at offset 16 changing from the
indeterminate fresh-memory value `'A'` to `'\0'`.  In the arena layout of
`logger.c` (one block per page: the aligned `page_list` record followed by
`ALIGN_PTR(page_size, 8)` buffer bytes), a capacity that is a multiple of
the 8-byte buffer alignment makes page 0's buffer end coincide with page
1's `page_list` record, so this stored byte overwrites page 1's `type`
field (WARNING becomes 0 = PAGE_TYPE_DEFAULT); a line write spills two
bytes.  The write is thus not confined to the target page, contradicting
the claim and the spec's own no-overlap and never-corrupt-memory policy. -/
theorem C10_full_write_stores_past_capacity :
    lgC10w.page_buffer_size = 16 ∧
    (lgC10w.pages.getD 0 dfltPage).remaining = 16 ∧
    (lgC10w.pages.getD 1 dfltPage).type = PageType.warning ∧
    (logger_save_to_page lgC10w dataC10 16 0).2 = 16 ∧
    ((logger_save_to_page lgC10w dataC10 16 0).1.pages.getD 0
      dfltPage).remaining = 0 ∧
    (lgC10w.pages.getD 0 dfltPage).buffer 16 = 'A' ∧
    ((logger_save_to_page lgC10w dataC10 16 0).1.pages.getD 0
      dfltPage).buffer 16 = nul := by
  decide
